import Mathlib

/- Shallow embedding of the StorageContainerProxy request-rewriting and caching
   middleware chain (pkg/proxy/handler.go and pkg/proxy/cache.go).

   Go strings are modelled as lists of characters (`List Char`); Go maps that
   the code indexes by strings are modelled as association lists; wall-clock
   timestamps (`time.Time`) are modelled as natural numbers and durations
   (`time.Duration`) as natural numbers on the same scale; HTTP calls to the
   backend are modelled as oracles passed in as function arguments.  Network
   errors are modelled as `Option` results, with `none` for a failed call. -/

/-- Convenience conversion from a Lean string literal to the `List Char` model
of a Go string. -/
def gs (s : String) : List Char := s.data

/-- Model of Go `strings.HasPrefix(s, pre)`. -/
def hasPrefixStr (s pre : List Char) : Bool := pre.isPrefixOf s

/-- Model of Go `strings.HasSuffix(s, suf)`. -/
def hasSuffixStr (s suf : List Char) : Bool := suf.isSuffixOf s

/-- Model of Go `strings.TrimSuffix(s, suf)`. -/
def trimSuffix (s suf : List Char) : List Char :=
  if hasSuffixStr s suf then s.take (s.length - suf.length) else s

/-- Model of the host-truncation in SubdomainAsSubpath (handler.go 120-123):
`host[:strings.Index(host, ":")]` when the host contains a colon. -/
def hostWithoutPort (host : List Char) : List Char :=
  if host.contains ':' then host.takeWhile (· != ':') else host

/-- Model of Go `filepath.Ext(p)`: the suffix of the final slash-separated
element starting at its final dot, or the empty string when that element has
no dot. -/
def pathExt (p : List Char) : List Char :=
  let segRev := p.reverse.takeWhile (· != '/')
  if segRev.contains '.' then '.' :: (segRev.takeWhile (· != '.')).reverse else []

/-- Model of Go `p[:strings.LastIndex(p, "/")]` as used by TryIndexOnNotFound
(handler.go 239): everything strictly before the last slash.  (When `p`
contains no slash the Go slice expression would panic; the model returns the
empty string, a case no middleware reaches for rooted URL paths.) -/
def trimAfterLastSlash (p : List Char) : List Char :=
  ((p.reverse.dropWhile (· != '/')).tail).reverse

/-- Model of `singleJoiningSlash` (handler.go 290-300). -/
def singleJoiningSlash (a b : List Char) : List Char :=
  let aslash := hasSuffixStr a (gs "/")
  let bslash := hasPrefixStr b (gs "/")
  if aslash && bslash then a ++ b.tail
  else if !aslash && !bslash then a ++ gs "/" ++ b
  else a ++ b

/-- Model of Go `url.URL.EscapedPath()` restricted to consistent URL values:
the raw (escaped) path when one is set, otherwise the plain path.  (Escaping
of individual characters is not modelled; every concrete input in this file
carries an empty raw path.) -/
def escapedPath (path rawPath : List Char) : List Char :=
  if rawPath = [] then path else rawPath

/-- Model of `joinURLPath` (handler.go 302-321) on the path and raw-path
components of its two URL arguments; returns the combined (path, rawpath). -/
def joinURLPath (aPath aRaw bPath bRaw : List Char) : List Char × List Char :=
  if aRaw = [] ∧ bRaw = [] then (singleJoiningSlash aPath bPath, [])
  else
    let ap := escapedPath aPath aRaw
    let bp := escapedPath bPath bRaw
    if hasSuffixStr ap (gs "/") && hasPrefixStr bp (gs "/") then
      (aPath ++ bPath.tail, ap ++ bp.tail)
    else if !hasSuffixStr ap (gs "/") && !hasPrefixStr bp (gs "/") then
      (aPath ++ gs "/" ++ bPath, ap ++ gs "/" ++ bp)
    else (aPath ++ bPath, ap ++ bp)

/-- The proxy target URL (handler.go 40-44): scheme/host/path of the backend
container plus the raw components used by `joinURLPath` and the directors. -/
structure Target where
  scheme : List Char
  host : List Char
  path : List Char
  rawPath : List Char
  rawQuery : List Char
deriving DecidableEq

/-- The path component of joining the target base URL with a request path, as
every middleware computes it via `joinURLPath(target, req.URL)`. -/
def joinPathOnly (t : Target) (p : List Char) : List Char :=
  (joinURLPath t.path t.rawPath p []).1

/-- Model of the request transformation performed by `SubdomainAsSubpath`
(handler.go 116-145): given the configured base domain and default
environment plus the request host and path, it returns the rewritten request
path, or `none` when the middleware rejects the request with status 500
(host not ending in the base domain, or too many subdomain labels). -/
def subdomainAsSubpath (domain env host path : List Char) : Option (List Char) :=
  let h := hostWithoutPort host
  if hasSuffixStr h domain then
    let hostDotCount := h.count '.'
    let domainDotCount := domain.count '.'
    if hostDotCount = domainDotCount then some (gs "/" ++ env ++ path)
    else if hostDotCount = domainDotCount + 1 then some (trimSuffix h domain)
    else none
  else none

/-- Backend HEAD probe for a status code, as made by `CheckUrlExists`
(handler.go 147-161): maps the joined backend path to the response status,
or `none` for a network error. -/
abbrev StatusOracle := List Char → Option Nat

/-- Backend HEAD probe for a checksum, as made by `CheckUrlMD5`
(cache.go 13-31): maps the probed path to the single `Content-Md5` header
value, or `none` when the call fails or the header is not exactly one
value (the function returns an error in both cases). -/
abbrev Md5Oracle := List Char → Option (List Char)

/-- Model of `AddTrailingSlashIfNoExtensionAndNotFound` (handler.go 193-222)
as a path transformer: probes the joined backend path; on 404 for an
extension-less path without a trailing slash it probes `joined ++
"/index.html"` and, when that is not itself a 404, appends `"/index.html"`
to the request path.  `none` models the 500 response on a probe error. -/
def addTrailingSlashMW (o : StatusOracle) (t : Target) (p : List Char) : Option (List Char) :=
  match o (joinPathOnly t p) with
  | none => none
  | some status =>
    if status = 404 ∧ hasSuffixStr p (gs "/") = false ∧ pathExt p = [] then
      match o (joinPathOnly t p ++ gs "/index.html") with
      | none => none
      | some s2 => if s2 ≠ 404 then some (p ++ gs "/index.html") else some p
    else some p

/-- Model of `AddHtmlIfNoExtensionAndNotFound` (handler.go 163-191): same
shape as the trailing-slash middleware but appending `".html"`. -/
def addHtmlMW (o : StatusOracle) (t : Target) (p : List Char) : Option (List Char) :=
  match o (joinPathOnly t p) with
  | none => none
  | some status =>
    if status = 404 ∧ hasSuffixStr p (gs "/") = false ∧ pathExt p = [] then
      match o (joinPathOnly t p ++ gs ".html") with
      | none => none
      | some s2 => if s2 ≠ 404 then some (p ++ gs ".html") else some p
    else some p

/-- Model of `TryIndexOnNotFound` (handler.go 224-244): probes the joined
backend path and, on 404 for a path not already ending in `"/index.html"`,
unconditionally rewrites the request path to its parent directory plus
`"/index.html"` (no second probe). -/
def tryIndexMW (o : StatusOracle) (t : Target) (p : List Char) : Option (List Char) :=
  match o (joinPathOnly t p) with
  | none => none
  | some status =>
    if status = 404 ∧ hasSuffixStr p (gs "/index.html") = false then
      some (trimAfterLastSlash p ++ gs "/index.html")
    else some p

/-- The not-found fallback chain in the execution order fixed by `Listen`
(handler.go 92-94): requests pass `AddTrailingSlashIfNoExtensionAndNotFound`
first, then `AddHtmlIfNoExtensionAndNotFound`, then `TryIndexOnNotFound`. -/
def fallbackChain (o : StatusOracle) (t : Target) (p : List Char) : Option (List Char) :=
  (addTrailingSlashMW o t p).bind fun p1 =>
    (addHtmlMW o t p1).bind fun p2 => tryIndexMW o t p2

/-- Modelled from the spec: the fallback ordering the spec claims as
canonical — `TryIndexOnNotFound` first, then the `.html` append, then the
`/index.html` append — stated over the same middleware transformers for
comparison with `fallbackChain`. -/
def claimedFallbackChain (o : StatusOracle) (t : Target) (p : List Char) : Option (List Char) :=
  (tryIndexMW o t p).bind fun p1 =>
    (addHtmlMW o t p1).bind fun p2 => addTrailingSlashMW o t p2

/-- The middleware and handler stages named in `Listen` (handler.go 74-102),
including the `RedirectAssets` stage that appears there only as a
commented-out registration. -/
inductive Stage where
  | cors
  | compress
  | subdomainAsSubpath
  | redirectAssets
  | throttleBacklog
  | md5Cache
  | addTrailingSlashIfNoExtensionAndNotFound
  | addHtmlIfNoExtensionAndNotFound
  | tryIndexOnNotFound
  | reverseProxy
deriving DecidableEq

/-- The registration order of `Listen` (handler.go 79-96).  With chi's
router, middlewares run in registration order, the first registered being
outermost; `RedirectAssets` is commented out in the source (handler.go 89)
and therefore absent. -/
def listenStages : List Stage :=
  [Stage.cors, Stage.compress, Stage.subdomainAsSubpath, Stage.throttleBacklog,
   Stage.md5Cache, Stage.addTrailingSlashIfNoExtensionAndNotFound,
   Stage.addHtmlIfNoExtensionAndNotFound, Stage.tryIndexOnNotFound, Stage.reverseProxy]

/-- Outcome of the `RedirectAssets` middleware (handler.go 246-268) for one
request: pass the request to the next handler untouched, or answer with an
HTTP redirect carrying the given status code and redirect-URL components. -/
inductive RedirectOutcome where
  | passThrough
  | redirect (code : Nat) (scheme host path rawQuery : List Char)
deriving DecidableEq

/-- Model of the query merging both `RedirectAssets` and the reverse-proxy
director perform (handler.go 258-262 and 54-58). -/
def mergeQuery (targetQuery reqQuery : List Char) : List Char :=
  if targetQuery = [] ∨ reqQuery = [] then targetQuery ++ reqQuery
  else targetQuery ++ '&' :: reqQuery

/-- Model of `RedirectAssets` (handler.go 246-268): paths whose extension is
empty or `".html"` pass through; every other extension is answered with a
302 redirect to the joined backend URL. -/
def redirectAssets (t : Target) (path reqQuery : List Char) : RedirectOutcome :=
  let e := pathExt path
  if e = [] ∨ e = gs ".html" then RedirectOutcome.passThrough
  else RedirectOutcome.redirect 302 t.scheme t.host (joinPathOnly t path)
    (mergeQuery t.rawQuery reqQuery)

/-- The fragment of `singleJoiningSlash`'s left argument that remains once a
single trailing slash (when present) is dropped. -/
def stripTrailingSlash (a : List Char) : List Char :=
  if hasSuffixStr a (gs "/") then a.dropLast else a

/-- The fragment of `singleJoiningSlash`'s right argument that remains once a
single leading slash (when present) is dropped. -/
def stripLeadingSlash (b : List Char) : List Char :=
  if hasPrefixStr b (gs "/") then b.tail else b

/-- Model of the `CachedResponseWriter` capture buffer (cache.go 33-37):
recorded status code, an insertion-ordered header multi-map, and the body
buffer. -/
structure CachedResponseWriter where
  statusCode : Nat
  header : List (List Char × List (List Char))
  buffer : List Char
deriving DecidableEq

/-- Model of `NewCachedResponseWriter` (cache.go 39-45): status
`http.StatusOK` (200), empty headers, empty body. -/
def newCachedResponseWriter : CachedResponseWriter :=
  { statusCode := 200, header := [], buffer := [] }

/-- Model of `http.Header.Add`: append the value to the key's slice,
creating the key at the end of the insertion order when absent. -/
def headerAdd (h : List (List Char × List (List Char))) (k v : List Char) :
    List (List Char × List (List Char)) :=
  match h with
  | [] => [(k, [v])]
  | kv :: rest => if kv.1 = k then (k, kv.2 ++ [v]) :: rest else kv :: headerAdd rest k v

/-- Model of indexing `http.Header` at a key (`w.Header()["Content-Md5"]`):
the value slice for the key; for the reachable states keys are unique, so
this is the slice of the key's unique entry (empty when absent). -/
def headerGet (h : List (List Char × List (List Char))) (k : List Char) :
    List (List Char) :=
  (h.filter fun kv => decide (kv.1 = k)).flatMap (·.2)

/-- One primitive emitted by `CachedResponseWriter.WriteTo` (cache.go 59-68)
against the real response writer: a header add, the status write, or the
body write. -/
inductive WEvent where
  | addHeader (k v : List Char)
  | writeHeader (code : Nat)
  | write (body : List Char)
deriving DecidableEq

/-- Model of `CachedResponseWriter.WriteTo` (cache.go 59-68) as the ordered
trace of primitives it performs on the destination writer: every header
value via `Add`, then `WriteHeader` with the recorded status, then one
`Write` of the buffered body. -/
def CachedResponseWriter.writeTo (w : CachedResponseWriter) : List WEvent :=
  (w.header.flatMap fun kv => kv.2.map (WEvent.addHeader kv.1))
    ++ [WEvent.writeHeader w.statusCode, WEvent.write w.buffer]

/-- Recognizer for header-add trace events. -/
def isAddHeaderEv : WEvent → Bool
  | WEvent.addHeader _ _ => true
  | _ => false

/-- Recognizer for the status-write trace event. -/
def isWriteHeaderEv : WEvent → Bool
  | WEvent.writeHeader _ => true
  | _ => false

/-- Recognizer for the body-write trace event. -/
def isWriteEv : WEvent → Bool
  | WEvent.write _ => true
  | _ => false

/-- The values replayed for one header key, in order, by a trace of writer
events. -/
def headerEvValues (k : List Char) (tr : List WEvent) : List (List Char) :=
  tr.filterMap fun e =>
    match e with
    | WEvent.addHeader k' v => if k' = k then some v else none
    | _ => none

/-- One call a wrapped handler can make against the capture buffer: a body
`Write`, a `WriteHeader`, or a header `Add`. -/
inductive WriterOp where
  | write (body : List Char)
  | writeHeader (code : Nat)
  | addHeader (k v : List Char)
deriving DecidableEq

/-- Effect of one handler call on the capture buffer (cache.go 47-57). -/
def applyWriterOp (w : CachedResponseWriter) : WriterOp → CachedResponseWriter
  | WriterOp.write body => { w with buffer := w.buffer ++ body }
  | WriterOp.writeHeader code => { w with statusCode := code }
  | WriterOp.addHeader k v => { w with header := headerAdd w.header k v }

/-- Effect of a whole handler invocation, as its sequence of writer calls. -/
def applyWriterOps (w : CachedResponseWriter) (ops : List WriterOp) : CachedResponseWriter :=
  ops.foldl applyWriterOp w

/-- Recognizer for the status-set primitive among writer calls. -/
def isWriteHeaderOp : WriterOp → Bool
  | WriterOp.writeHeader _ => true
  | _ => false

/-- Model of a `CachedResponse` cache entry (cache.go 70-74). -/
structure CachedResponse where
  md5 : List Char
  value : CachedResponseWriter
  checked : Nat
deriving DecidableEq

/-- Model of `ResponseCache` (cache.go 76-79): the two-level Go map
`map[string]map[string]*CachedResponse` as nested association lists, the
inner values being `Option` to model entries explicitly set to `nil`
(cache.go 114), plus the freshness window `entryLifetime`. -/
structure ResponseCache where
  cache : List (List Char × List (List Char × Option CachedResponse))
  entryLifetime : Nat
deriving DecidableEq

/-- Model of `NewMd5ResponseCache` (cache.go 81-86). -/
def newMd5ResponseCache (entryLifetime : Nat) : ResponseCache :=
  { cache := [], entryLifetime := entryLifetime }

/-- Lookup of the inner per-method map (`c.cache[method]`); `none` is the
Go nil map. -/
def outerFind (l : List (List Char × List (List Char × Option CachedResponse)))
    (m : List Char) : Option (List (List Char × Option CachedResponse)) :=
  (l.find? fun e => decide (e.1 = m)).map (·.2)

/-- Lookup of an inner map key (`c.cache[method][path]`); the outer `none`
is an absent key, `some none` an entry explicitly set to nil. -/
def innerFind (mm : List (List Char × Option CachedResponse)) (p : List Char) :
    Option (Option CachedResponse) :=
  (mm.find? fun e => decide (e.1 = p)).map (·.2)

/-- Assignment into the inner per-method map. -/
def innerSet (mm : List (List Char × Option CachedResponse)) (p : List Char)
    (v : Option CachedResponse) : List (List Char × Option CachedResponse) :=
  match mm with
  | [] => [(p, v)]
  | e :: rest => if e.1 = p then (p, v) :: rest else e :: innerSet rest p v

/-- Assignment of a whole per-method map into the outer map. -/
def outerSet (l : List (List Char × List (List Char × Option CachedResponse)))
    (m : List Char) (mm : List (List Char × Option CachedResponse)) :
    List (List Char × List (List Char × Option CachedResponse)) :=
  match l with
  | [] => [(m, mm)]
  | e :: rest => if e.1 = m then (m, mm) :: rest else e :: outerSet rest m mm

/-- Model of `c.cache[method][path] = v`. -/
def setEntry (c : ResponseCache) (m p : List Char) (v : Option CachedResponse) :
    ResponseCache :=
  { c with cache := outerSet c.cache m (innerSet ((outerFind c.cache m).getD []) p v) }

/-- Model of the nil-map initialization both `get` and `put` perform
(`if c.cache[method] == nil { c.cache[method] = make(...) }`). -/
def ensureMethodMap (c : ResponseCache) (m : List Char) : ResponseCache :=
  match outerFind c.cache m with
  | none => { c with cache := outerSet c.cache m [] }
  | some _ => c

/-- The entry currently stored for a (method, path) key, flattening the
absent-key and explicit-nil cases to `none`. -/
def lookupEntry (c : ResponseCache) (m p : List Char) : Option CachedResponse :=
  match outerFind c.cache m with
  | some mm =>
    match innerFind mm p with
    | some (some r) => some r
    | _ => none
  | none => none

/-- Result of one `ResponseCache.get` call: the returned response (if any),
the cache state afterwards, and the number of backend HEAD probes issued
during the call. -/
structure GetResult where
  result : Option CachedResponseWriter
  cache : ResponseCache
  probes : Nat
deriving DecidableEq

/-- Model of `ResponseCache.get` (cache.go 88-122): non-GET methods miss
immediately; a hit younger than `entryLifetime` is returned with no backend
contact; an older hit triggers one `CheckUrlMD5` probe — on probe failure
the stale value is returned unchanged, on a checksum mismatch the entry is
set to nil and the call misses, and on a match the timestamp is refreshed
and the value returned. -/
def ResponseCache.get (c : ResponseCache) (oM : Md5Oracle) (now : Nat)
    (method targetPath : List Char) : GetResult :=
  if method ≠ gs "GET" then ⟨none, c, 0⟩
  else
    match outerFind c.cache method with
    | none => ⟨none, { c with cache := outerSet c.cache method [] }, 0⟩
    | some mm =>
      match innerFind mm targetPath with
      | some (some r) =>
        if now - r.checked < c.entryLifetime then ⟨some r.value, c, 0⟩
        else
          match oM targetPath with
          | none => ⟨some r.value, c, 1⟩
          | some m5 =>
            if r.md5 ≠ m5 then ⟨none, setEntry c method targetPath none, 1⟩
            else ⟨some r.value, setEntry c method targetPath
              (some { r with checked := now }), 1⟩
      | _ => ⟨none, c, 0⟩

/-- Model of `ResponseCache.put` (cache.go 124-142): after the nil-map
initialization, the captured response is stored under (method, path) —
overwriting unconditionally — exactly when its `Content-Md5` header carries
exactly one value; there is no method check. -/
def ResponseCache.put (c : ResponseCache) (now : Nat) (method targetPath : List Char)
    (w : CachedResponseWriter) : ResponseCache :=
  let c1 := ensureMethodMap c method
  match headerGet w.header (gs "Content-Md5") with
  | [v] => setEntry c1 method targetPath (some { md5 := v, value := w, checked := now })
  | _ => c1

/-- The capture buffer as the fallback middlewares leave it when a backend
probe fails: they call `WriteHeader(500)` on the fresh buffer and return
(handler.go 171, 201, 231). -/
def errorWriter : CachedResponseWriter :=
  { statusCode := 500, header := [], buffer := [] }

/-- Outcome of one request through the composed `Listen` pipeline model:
the response delivered to the client (`none` for the subdomain
middleware's direct 500 rejection) and the cache state afterwards. -/
structure ListenOutcome where
  response : Option CachedResponseWriter
  cacheAfter : ResponseCache
deriving DecidableEq

/-- Model of one request through the middleware chain `Listen` composes
(handler.go 88-96): `SubdomainAsSubpath` rewrites the path (or rejects),
then `Md5Cache` (handler.go 270-288) looks the rewritten path up — the
lookup key is the path *before* the fallback rewrites — and on a miss runs
the three not-found fallback middlewares in their registration order inside
the capture buffer, finally reaching the reverse proxy, modelled as
`backend` applied to the joined backend path.  Because the fallback
middlewares mutate the request URL in place, the subsequent `put` keys the
entry by the fallback-rewritten client path; the `CachedResponseWriter`
produced by the inner handlers is stored and replayed.  The throttle stage
is a pure concurrency gate and is identity for a single request. -/
def md5CacheListen (domain env : List Char) (t : Target) (oS : StatusOracle)
    (oM : Md5Oracle) (backend : List Char → CachedResponseWriter)
    (c : ResponseCache) (now : Nat) (method host path : List Char) : ListenOutcome :=
  match subdomainAsSubpath domain env host path with
  | none => ⟨none, c⟩
  | some p0 =>
    let g := ResponseCache.get c oM now method p0
    match g.result with
    | some w => ⟨some w, g.cache⟩
    | none =>
      match addTrailingSlashMW oS t p0 with
      | none => ⟨some errorWriter, ResponseCache.put g.cache now method p0 errorWriter⟩
      | some p1 =>
        match addHtmlMW oS t p1 with
        | none => ⟨some errorWriter, ResponseCache.put g.cache now method p1 errorWriter⟩
        | some p2 =>
          match tryIndexMW oS t p2 with
          | none => ⟨some errorWriter, ResponseCache.put g.cache now method p2 errorWriter⟩
          | some p3 =>
            let w := backend (joinPathOnly t p3)
            ⟨some w, ResponseCache.put g.cache now method p3 w⟩

/-- Concrete proxy target with container base path `/c`, as `NewHandler`
builds one (handler.go 40-44). -/
def sampleTarget : Target :=
  { scheme := gs "https", host := gs "backend", path := gs "/c",
    rawPath := [], rawQuery := [] }

/-- Concrete backend for exercising the fallback ordering: `/c/foo` and
`/c/index.html` are missing (404), everything else exists (200). -/
def fallbackOracle : StatusOracle := fun p =>
  if p = gs "/c/foo" then some 404
  else if p = gs "/c/index.html" then some 404
  else some 200

/-- Concrete backend statuses for a whole-pipeline run: only `/c/e/foo` is
missing. -/
def pipelineOracle : StatusOracle := fun p =>
  if p = gs "/c/e/foo" then some 404 else some 200

/-- Concrete backend responses for a whole-pipeline run: every object is
served with status 200, body `B` and a single `Content-Md5` value `m`. -/
def pipelineBackend : List Char → CachedResponseWriter := fun _ =>
  { statusCode := 200, header := [(gs "Content-Md5", [gs "m"])], buffer := gs "B" }

/-- Checksum probe used in the pipeline run; the run below never consults
it (the cache starts empty, so the lookup misses without probing). -/
def pipelineMd5Oracle : Md5Oracle := fun _ => none

/-- One GET request for client path `/foo` on host `x` (equal to the base
domain, so the default environment `e` is prefixed) through the composed
pipeline, starting from an empty cache. -/
def pipelineRun : ListenOutcome :=
  md5CacheListen (gs "x") (gs "e") sampleTarget pipelineOracle pipelineMd5Oracle
    pipelineBackend (newMd5ResponseCache 100) 7 (gs "GET") (gs "x") (gs "/foo")

/-- Concrete captured response carrying a single checksum header. -/
def sampleEntryWriter : CachedResponseWriter :=
  { statusCode := 200, header := [(gs "Content-Md5", [gs "abc"])], buffer := gs "B" }

/-- Concrete cache holding one GET entry for `/p` with checksum `abc`,
last validated at time 10, under a freshness window of 5. -/
def sampleCache : ResponseCache :=
  { cache := [(gs "GET",
      [(gs "/p", some { md5 := gs "abc", value := sampleEntryWriter, checked := 10 })])],
    entryLifetime := 5 }

theorem gs_slash : gs "/" = ['/'] := rfl

theorem hasPrefixStr_slash_iff (b : List Char) :
    hasPrefixStr b (gs "/") = true ↔ ∃ t, b = '/' :: t := by
  rw [gs_slash]
  constructor
  · intro h
    obtain ⟨t, ht⟩ := List.isPrefixOf_iff_prefix.mp h
    exact ⟨t, ht.symm⟩
  · rintro ⟨t, rfl⟩
    exact List.isPrefixOf_iff_prefix.mpr ⟨t, rfl⟩

theorem hasSuffixStr_slash_iff (a : List Char) :
    hasSuffixStr a (gs "/") = true ↔ ∃ t, a = t ++ ['/'] := by
  rw [gs_slash]
  constructor
  · intro h
    obtain ⟨t, ht⟩ := List.isSuffixOf_iff_suffix.mp h
    exact ⟨t, ht.symm⟩
  · rintro ⟨t, rfl⟩
    exact List.isSuffixOf_iff_suffix.mpr ⟨t, rfl⟩

theorem singleJoiningSlash_decomp (a b : List Char) :
    singleJoiningSlash a b = stripTrailingSlash a ++ '/' :: stripLeadingSlash b := by
  rcases ha : hasSuffixStr a (gs "/") <;> rcases hb : hasPrefixStr b (gs "/") <;>
    rw [gs_slash] at ha hb
  · simp [singleJoiningSlash, stripTrailingSlash, stripLeadingSlash, ha, hb, gs_slash]
  · obtain ⟨t, rfl⟩ := (hasPrefixStr_slash_iff b).mp (by rw [gs_slash]; exact hb)
    simp [singleJoiningSlash, stripTrailingSlash, stripLeadingSlash, ha, hb, gs_slash]
  · obtain ⟨t, rfl⟩ := (hasSuffixStr_slash_iff a).mp (by rw [gs_slash]; exact ha)
    simp [singleJoiningSlash, stripTrailingSlash, stripLeadingSlash, ha, hb, gs_slash]
  · obtain ⟨t, rfl⟩ := (hasSuffixStr_slash_iff a).mp (by rw [gs_slash]; exact ha)
    obtain ⟨s, rfl⟩ := (hasPrefixStr_slash_iff b).mp (by rw [gs_slash]; exact hb)
    simp [singleJoiningSlash, stripTrailingSlash, stripLeadingSlash, ha, hb, gs_slash]

/-- Claim C2, counterexample: `singleJoiningSlash` applied to two empty
fragments yields `"/"`, not the empty string claimed by the spec. -/
theorem singleJoiningSlash_counterexample :
    singleJoiningSlash (gs "") (gs "") = gs "/"
    ∧ singleJoiningSlash (gs "") (gs "") ≠ gs "" := by
  decide

/-- Claim C2 (amended): `join("/a/", "/b") = "/a/b"`, `join("/a", "b") =
"/a/b"`, `join("/a/", "b") = "/a/b"`, and `join("", "") = "/"` (not `""`);
in general the result is the left fragment minus one trailing slash, then
exactly one separating slash, then the right fragment minus one leading
slash, so whenever each fragment carries at most one boundary slash the
result has exactly one slash between the stripped fragments (never zero,
never two); and on URLs without raw paths `joinURLPath` reduces to
`singleJoiningSlash`. -/
theorem singleJoiningSlash_spec :
    singleJoiningSlash (gs "/a/") (gs "/b") = gs "/a/b"
    ∧ singleJoiningSlash (gs "/a") (gs "b") = gs "/a/b"
    ∧ singleJoiningSlash (gs "/a/") (gs "b") = gs "/a/b"
    ∧ singleJoiningSlash (gs "") (gs "") = gs "/"
    ∧ (∀ a b, singleJoiningSlash a b = stripTrailingSlash a ++ '/' :: stripLeadingSlash b)
    ∧ (∀ a b, hasSuffixStr (stripTrailingSlash a) (gs "/") = false →
        hasPrefixStr (stripLeadingSlash b) (gs "/") = false →
        ∃ a' b', singleJoiningSlash a b = a' ++ '/' :: b'
          ∧ hasSuffixStr a' (gs "/") = false ∧ hasPrefixStr b' (gs "/") = false)
    ∧ (∀ pa pb, joinURLPath pa [] pb [] = (singleJoiningSlash pa pb, [])) := by
  refine ⟨by decide, by decide, by decide, by decide, singleJoiningSlash_decomp, ?_, ?_⟩
  · intro a b ha hb
    exact ⟨_, _, singleJoiningSlash_decomp a b, ha, hb⟩
  · intro pa pb
    simp [joinURLPath]

/-- Claim C2, witness: the one-slash decomposition instantiated at the
concrete fragments `"/a"` and `"b"`. -/
theorem singleJoiningSlash_spec_witness :
    ∃ a' b', singleJoiningSlash (gs "/a") (gs "b") = a' ++ '/' :: b'
      ∧ hasSuffixStr a' (gs "/") = false ∧ hasPrefixStr b' (gs "/") = false :=
  singleJoiningSlash_spec.2.2.2.2.2.1 (gs "/a") (gs "b") (by decide) (by decide)

/-- Claim C3 (code bug): with base domain `example.com` and host
`app.example.com`, the middleware replaces the whole request path with
`TrimSuffix(host, domain) = "app."` — the original path `/x` is discarded
(it does not even survive as a suffix), the label keeps a trailing dot and
no leading slash, and the result is not the claimed `app` prefix on the
original path; the equal-label branch for a host equal to the base domain
does prefix the configured default environment as claimed. -/
theorem subdomainAsSubpath_discards_path :
    subdomainAsSubpath (gs "example.com") (gs "env") (gs "app.example.com") (gs "/x")
      = some (gs "app.")
    ∧ some (gs "app.") ≠ some (gs "/app/x")
    ∧ hasSuffixStr (gs "app.") (gs "/x") = false
    ∧ subdomainAsSubpath (gs "example.com") (gs "env") (gs "example.com") (gs "/x")
      = some (gs "/env/x") := by
  decide

/-- Claim C7, counterexample: with backend `/c/foo` missing but
`/c/foo/index.html` and `/c/foo.html` present, the chain as `Listen`
composes it rewrites `/foo` to `/foo/index.html` (the trailing-slash
middleware runs first), while the spec's claimed index-first ordering
would produce `/index.html`; the two orders are observably different. -/
theorem fallback_order_counterexample :
    fallbackChain fallbackOracle sampleTarget (gs "/foo") = some (gs "/foo/index.html")
    ∧ claimedFallbackChain fallbackOracle sampleTarget (gs "/foo") = some (gs "/index.html")
    ∧ some (gs "/foo/index.html") ≠ some (gs "/index.html") := by
  decide

/-- Claim C7 (amended): the fallback rewrites are attempted in the order
Trailing-Slash-on-Not-Found (append `/index.html`) first, then
Html-Extension-on-Not-Found (append `.html`), then Index-on-Not-Found
(parent directory plus `/index.html`) — the reverse of the claimed order,
matching the registration order in `Listen` — and each middleware either
fails on a probe error, leaves the path unchanged, or applies its single
rewrite: at most one retry per middleware per request. -/
theorem fallback_order :
    (∀ o t p, addTrailingSlashMW o t p = none ∨ addTrailingSlashMW o t p = some p
      ∨ addTrailingSlashMW o t p = some (p ++ gs "/index.html"))
    ∧ (∀ o t p, addHtmlMW o t p = none ∨ addHtmlMW o t p = some p
      ∨ addHtmlMW o t p = some (p ++ gs ".html"))
    ∧ (∀ o t p, tryIndexMW o t p = none ∨ tryIndexMW o t p = some p
      ∨ tryIndexMW o t p = some (trimAfterLastSlash p ++ gs "/index.html"))
    ∧ (∀ o t p, fallbackChain o t p = (addTrailingSlashMW o t p).bind fun p1 =>
        (addHtmlMW o t p1).bind fun p2 => tryIndexMW o t p2)
    ∧ listenStages.indexOf Stage.addTrailingSlashIfNoExtensionAndNotFound
        < listenStages.indexOf Stage.addHtmlIfNoExtensionAndNotFound
    ∧ listenStages.indexOf Stage.addHtmlIfNoExtensionAndNotFound
        < listenStages.indexOf Stage.tryIndexOnNotFound := by
  refine ⟨?_, ?_, ?_, fun o t p => rfl, by decide, by decide⟩
  · intro o t p
    unfold addTrailingSlashMW
    repeat' split
    all_goals first
      | exact Or.inl rfl
      | exact Or.inr (Or.inl rfl)
      | exact Or.inr (Or.inr rfl)
  · intro o t p
    unfold addHtmlMW
    repeat' split
    all_goals first
      | exact Or.inl rfl
      | exact Or.inr (Or.inl rfl)
      | exact Or.inr (Or.inr rfl)
  · intro o t p
    unfold tryIndexMW
    repeat' split
    all_goals first
      | exact Or.inl rfl
      | exact Or.inr (Or.inl rfl)
      | exact Or.inr (Or.inr rfl)

/-- Claim C8, counterexample: `RedirectAssets` hard-codes its rule — every
extension other than empty and `.html` is redirected — so a request for
`/a.css` is answered with a 302 although `.css` is not in the spec's
example allow-list `[".js"]`; and the stage is commented out in `Listen`,
so the composed handler never redirects any request. -/
theorem redirectAssets_counterexample :
    redirectAssets sampleTarget (gs "/a.css") []
      = RedirectOutcome.redirect 302 (gs "https") (gs "backend") (gs "/c/a.css") []
    ∧ redirectAssets sampleTarget (gs "/a.css") [] ≠ RedirectOutcome.passThrough
    ∧ gs ".css" ∉ [gs ".js"]
    ∧ Stage.redirectAssets ∉ listenStages := by
  decide

/-- Claim C8 (amended): `RedirectAssets` answers a 302 redirect to the
fully-joined backend URL (scheme, host, joined path, merged query) for
every request path whose extension is neither empty nor `.html` — the
"allow-list" is this hard-coded complement, not configuration — and passes
every other request through untouched; the stage is not registered in
`Listen` (its registration is commented out), so the deployed chain never
takes the redirect path. -/
theorem redirectAssets_spec :
    (∀ t path q, pathExt path = [] ∨ pathExt path = gs ".html" →
      redirectAssets t path q = RedirectOutcome.passThrough)
    ∧ (∀ t path q, pathExt path ≠ [] → pathExt path ≠ gs ".html" →
      redirectAssets t path q = RedirectOutcome.redirect 302 t.scheme t.host
        (joinPathOnly t path) (mergeQuery t.rawQuery q))
    ∧ Stage.redirectAssets ∉ listenStages := by
  refine ⟨?_, ?_, by decide⟩
  · intro t path q h
    unfold redirectAssets
    rw [if_pos h]
  · intro t path q h1 h2
    unfold redirectAssets
    rw [if_neg (not_or.mpr ⟨h1, h2⟩)]

/-- Claim C8, witness: the pass-through and redirect branches at the
concrete paths `/style.html` and `/b.js`. -/
theorem redirectAssets_spec_witness :
    redirectAssets sampleTarget (gs "/style.html") [] = RedirectOutcome.passThrough
    ∧ redirectAssets sampleTarget (gs "/b.js") []
      = RedirectOutcome.redirect 302 (gs "https") (gs "backend") (gs "/c/b.js") [] := by
  constructor
  · exact redirectAssets_spec.1 sampleTarget (gs "/style.html") [] (Or.inr (by decide))
  · rw [redirectAssets_spec.2.1 sampleTarget (gs "/b.js") [] (by decide) (by decide)]
    decide

theorem innerFind_innerSet_self (mm : List (List Char × Option CachedResponse))
    (p : List Char) (v : Option CachedResponse) :
    innerFind (innerSet mm p v) p = some v := by
  induction mm with
  | nil => simp [innerSet, innerFind]
  | cons e rest ih =>
    by_cases he : e.1 = p
    · simp [innerSet, he, innerFind]
    · simp only [innerSet, if_neg he]
      simp only [innerFind] at ih ⊢
      rw [List.find?_cons_of_neg _ (by simpa using he)]
      exact ih

theorem outerFind_outerSet_self
    (l : List (List Char × List (List Char × Option CachedResponse)))
    (m : List Char) (mm : List (List Char × Option CachedResponse)) :
    outerFind (outerSet l m mm) m = some mm := by
  induction l with
  | nil => simp [outerSet, outerFind]
  | cons e rest ih =>
    by_cases he : e.1 = m
    · simp [outerSet, he, outerFind]
    · simp only [outerSet, if_neg he]
      simp only [outerFind] at ih ⊢
      rw [List.find?_cons_of_neg _ (by simpa using he)]
      exact ih

theorem lookupEntry_setEntry_self (c : ResponseCache) (m p : List Char)
    (r : CachedResponse) :
    lookupEntry (setEntry c m p (some r)) m p = some r := by
  simp [lookupEntry, setEntry, outerFind_outerSet_self, innerFind_innerSet_self]

theorem lookupEntry_ensureMethodMap (c : ResponseCache) (m p : List Char) :
    lookupEntry (ensureMethodMap c m) m p = lookupEntry c m p := by
  unfold ensureMethodMap
  rcases h : outerFind c.cache m with _ | mm
  · simp [lookupEntry, outerFind_outerSet_self, innerFind, h]
  · rfl

theorem lookupEntry_eq_some {c : ResponseCache} {m p : List Char} {r : CachedResponse}
    (h : lookupEntry c m p = some r) :
    ∃ mm, outerFind c.cache m = some mm ∧ innerFind mm p = some (some r) := by
  unfold lookupEntry at h
  rcases houter : outerFind c.cache m with _ | mm <;> simp only [houter] at h
  · exact absurd h (by simp)
  · rcases hinner : innerFind mm p with _ | ov <;> simp only [hinner] at h
    · exact absurd h (by simp)
    · rcases ov with _ | r'
      · exact absurd h (by simp)
      · simp only [Option.some.injEq] at h
        exact ⟨mm, rfl, by rw [hinner, h]⟩

/-- Claim C4, counterexample: `put` has no method check — storing a
response that carries exactly one `Content-Md5` value under method `POST`
does create a cache entry for that key. -/
theorem cache_put_counterexample :
    lookupEntry (ResponseCache.put (newMd5ResponseCache 100) 5 (gs "POST") (gs "/p")
        sampleEntryWriter) (gs "POST") (gs "/p")
      = some { md5 := gs "abc", value := sampleEntryWriter, checked := 5 }
    ∧ lookupEntry (newMd5ResponseCache 100) (gs "POST") (gs "/p") = none := by
  decide

/-- Claim C4 (amended): a `put` call creates — and unconditionally
overwrites — the entry for its (method, path) key exactly when the
response carries exactly one checksum header value, for any method, GET or
not: `put` never checks the method; calls with zero or several checksum
values leave the key without a new entry; the GET-only restriction is
enforced at lookup, where `get` misses for every non-GET method. -/
theorem cache_put_spec :
    (∀ c now method path w v, headerGet w.header (gs "Content-Md5") = [v] →
      lookupEntry (ResponseCache.put c now method path w) method path
        = some { md5 := v, value := w, checked := now })
    ∧ (∀ c now method path w, (headerGet w.header (gs "Content-Md5")).length ≠ 1 →
      lookupEntry (ResponseCache.put c now method path w) method path
        = lookupEntry c method path)
    ∧ (∀ c oM now method path, method ≠ gs "GET" →
      (ResponseCache.get c oM now method path).result = none) := by
  refine ⟨?_, ?_, ?_⟩
  · intro c now method path w v h
    unfold ResponseCache.put
    rw [h]
    exact lookupEntry_setEntry_self _ method path _
  · intro c now method path w h
    unfold ResponseCache.put
    rcases hh : headerGet w.header (gs "Content-Md5") with _ | ⟨v, _ | ⟨v2, vs⟩⟩
    · exact lookupEntry_ensureMethodMap c method path
    · rw [hh] at h; simp at h
    · exact lookupEntry_ensureMethodMap c method path
  · intro c oM now method path h
    simp [ResponseCache.get, h]

/-- Claim C4, witness: the success branch at a concrete cache and writer,
the no-store branch for a checksum-less writer, and the non-GET miss. -/
theorem cache_put_spec_witness :
    lookupEntry (ResponseCache.put sampleCache 20 (gs "GET") (gs "/q") sampleEntryWriter)
        (gs "GET") (gs "/q")
      = some { md5 := gs "abc", value := sampleEntryWriter, checked := 20 }
    ∧ lookupEntry (ResponseCache.put sampleCache 20 (gs "GET") (gs "/q") errorWriter)
        (gs "GET") (gs "/q")
      = lookupEntry sampleCache (gs "GET") (gs "/q")
    ∧ (ResponseCache.get sampleCache pipelineMd5Oracle 20 (gs "POST") (gs "/p")).result
      = none :=
  ⟨cache_put_spec.1 sampleCache 20 (gs "GET") (gs "/q") sampleEntryWriter (gs "abc")
     (by decide),
   cache_put_spec.2.1 sampleCache 20 (gs "GET") (gs "/q") errorWriter (by decide),
   cache_put_spec.2.2 sampleCache pipelineMd5Oracle 20 (gs "POST") (gs "/p") (by decide)⟩

/-- Claim C5 (confirmed): on a hit younger than the freshness window the
stored response is returned with the cache unchanged and zero backend
probes — so repeated identical GETs within the window keep returning the
stored response without further backend calls; on a hit at least as old as
the window exactly one probe is issued, and a matching checksum refreshes
the entry's timestamp and returns the stored response while a differing
checksum nils the entry and the lookup misses. -/
theorem cache_get_freshness :
    ∀ (c : ResponseCache) (oM : Md5Oracle) (now : Nat) (path : List Char)
      (r : CachedResponse), lookupEntry c (gs "GET") path = some r →
      (now - r.checked < c.entryLifetime →
        ResponseCache.get c oM now (gs "GET") path = ⟨some r.value, c, 0⟩)
      ∧ (¬ now - r.checked < c.entryLifetime →
          ∀ m5, oM path = some m5 →
          (r.md5 = m5 →
            ResponseCache.get c oM now (gs "GET") path
              = ⟨some r.value,
                 setEntry c (gs "GET") path (some { r with checked := now }), 1⟩)
          ∧ (r.md5 ≠ m5 →
            ResponseCache.get c oM now (gs "GET") path
              = ⟨none, setEntry c (gs "GET") path none, 1⟩)) := by
  intro c oM now path r hr
  obtain ⟨mm, houter, hinner⟩ := lookupEntry_eq_some hr
  constructor
  · intro hfresh
    simp [ResponseCache.get, houter, hinner, hfresh]
  · intro hstale m5 hm5
    constructor
    · intro heq
      simp [ResponseCache.get, houter, hinner, hstale, hm5, heq]
    · intro hne
      simp [ResponseCache.get, houter, hinner, hstale, hm5, hne]

/-- Claim C5, witness: the fresh-hit, stale-match and stale-mismatch
branches at a concrete one-entry cache (entry validated at 10, window 5). -/
theorem cache_get_freshness_witness :
    ResponseCache.get sampleCache (fun _ => some (gs "abc")) 12 (gs "GET") (gs "/p")
      = ⟨some sampleEntryWriter, sampleCache, 0⟩
    ∧ ResponseCache.get sampleCache (fun _ => some (gs "abc")) 20 (gs "GET") (gs "/p")
      = ⟨some sampleEntryWriter, setEntry sampleCache (gs "GET") (gs "/p")
          (some { md5 := gs "abc", value := sampleEntryWriter, checked := 20 }), 1⟩
    ∧ ResponseCache.get sampleCache (fun _ => some (gs "xyz")) 20 (gs "GET") (gs "/p")
      = ⟨none, setEntry sampleCache (gs "GET") (gs "/p") none, 1⟩ :=
  ⟨(cache_get_freshness sampleCache (fun _ => some (gs "abc")) 12 (gs "/p")
      { md5 := gs "abc", value := sampleEntryWriter, checked := 10 } (by decide)).1
      (by decide),
   ((cache_get_freshness sampleCache (fun _ => some (gs "abc")) 20 (gs "/p")
      { md5 := gs "abc", value := sampleEntryWriter, checked := 10 } (by decide)).2
      (by decide) (gs "abc") rfl).1 rfl,
   ((cache_get_freshness sampleCache (fun _ => some (gs "xyz")) 20 (gs "/p")
      { md5 := gs "abc", value := sampleEntryWriter, checked := 10 } (by decide)).2
      (by decide) (gs "xyz") rfl).2 (by decide)⟩

/-- Claim C6, counterexample: on a stale hit whose checksum probe fails,
`get` returns the stale stored response with the cache unchanged — the
entry is not invalidated and the lookup is not a miss. -/
theorem cache_probe_failure_counterexample :
    ResponseCache.get sampleCache (fun _ => none) 20 (gs "GET") (gs "/p")
      = ⟨some sampleEntryWriter, sampleCache, 1⟩
    ∧ some sampleEntryWriter ≠ (none : Option CachedResponseWriter)
    ∧ lookupEntry sampleCache (gs "GET") (gs "/p") ≠ none := by
  decide

/-- Claim C6 (amended): for a cache lookup whose entry has aged past the
freshness window, if the HEAD probe fails the entry is left untouched —
neither invalidated nor refreshed — and the stale cached response *is*
returned: the lookup reports a hit, not a miss. -/
theorem cache_probe_failure :
    ∀ (c : ResponseCache) (oM : Md5Oracle) (now : Nat) (path : List Char)
      (r : CachedResponse), lookupEntry c (gs "GET") path = some r →
      ¬ now - r.checked < c.entryLifetime → oM path = none →
      ResponseCache.get c oM now (gs "GET") path = ⟨some r.value, c, 1⟩ := by
  intro c oM now path r hr hstale hfail
  obtain ⟨mm, houter, hinner⟩ := lookupEntry_eq_some hr
  simp [ResponseCache.get, houter, hinner, hstale, hfail]

/-- Claim C6, witness: the probe-failure branch at the concrete one-entry
cache, aged past the window. -/
theorem cache_probe_failure_witness :
    ResponseCache.get sampleCache (fun _ => none) 30 (gs "GET") (gs "/p")
      = ⟨some sampleEntryWriter, sampleCache, 1⟩ :=
  cache_probe_failure sampleCache (fun _ => none) 30 (gs "/p")
    { md5 := gs "abc", value := sampleEntryWriter, checked := 10 } (by decide)
    (by decide) rfl

/-- Claim C1, counterexample: in a concrete pipeline run (request `/foo`,
default environment `e`, container base path `/c`) the fallback chain
rewrites the client path to `/e/foo/index.html` and the cache stores the
response under that client-side path — not under the resolved backend path
`/c/e/foo/index.html`, which is keyed nowhere; moreover in `Listen` the
`Md5Cache` stage is registered *before* the fallback middlewares and is
not directly in front of the reverse proxy. -/
theorem md5Cache_key_counterexample :
    lookupEntry pipelineRun.cacheAfter (gs "GET") (gs "/e/foo/index.html") ≠ none
    ∧ lookupEntry pipelineRun.cacheAfter (gs "GET")
        (joinPathOnly sampleTarget (gs "/e/foo/index.html")) = none
    ∧ joinPathOnly sampleTarget (gs "/e/foo/index.html") = gs "/c/e/foo/index.html"
    ∧ gs "/c/e/foo/index.html" ≠ gs "/e/foo/index.html"
    ∧ listenStages.indexOf Stage.md5Cache
        < listenStages.indexOf Stage.addTrailingSlashIfNoExtensionAndNotFound
    ∧ listenStages.indexOf Stage.md5Cache + 1 ≠ listenStages.indexOf Stage.reverseProxy := by
  decide

/-- Claim C1 (amended): the checksum-cache stage runs after the subdomain
rewrite and the throttle and *before* the not-found fallback chain, which
it wraps; on a cache miss with a successful fallback pass, the response is
fetched from the backend at the joined backend path but the new cache
entry is keyed by (method, fallback-rewritten client path) — the request
path as mutated in place by the fallback middlewares, never joined with
the backend base path (the lookup, by contrast, uses the pre-fallback
rewritten path `p0`). -/
theorem md5Cache_key_and_position :
    (∀ domain env t oS oM backend c now method host path p0 p3,
      subdomainAsSubpath domain env host path = some p0 →
      (ResponseCache.get c oM now method p0).result = none →
      fallbackChain oS t p0 = some p3 →
      md5CacheListen domain env t oS oM backend c now method host path
        = ⟨some (backend (joinPathOnly t p3)),
           ResponseCache.put (ResponseCache.get c oM now method p0).cache now method p3
             (backend (joinPathOnly t p3))⟩)
    ∧ listenStages.indexOf Stage.throttleBacklog + 1 = listenStages.indexOf Stage.md5Cache
    ∧ listenStages.indexOf Stage.md5Cache
        < listenStages.indexOf Stage.addTrailingSlashIfNoExtensionAndNotFound := by
  refine ⟨?_, by decide, by decide⟩
  intro domain env t oS oM backend c now method host path p0 p3 hsub hmiss hfb
  unfold fallbackChain at hfb
  obtain ⟨p1, h1, hrest⟩ := Option.bind_eq_some.mp hfb
  obtain ⟨p2, h2, h3⟩ := Option.bind_eq_some.mp hrest
  unfold md5CacheListen
  simp only [hsub, hmiss, h1, h2, h3]

/-- Claim C1, witness: the miss-then-store equation instantiated at the
concrete pipeline scenario. -/
theorem md5Cache_key_and_position_witness :
    md5CacheListen (gs "x") (gs "e") sampleTarget pipelineOracle pipelineMd5Oracle
        pipelineBackend (newMd5ResponseCache 100) 7 (gs "GET") (gs "x") (gs "/foo")
      = ⟨some (pipelineBackend (joinPathOnly sampleTarget (gs "/e/foo/index.html"))),
         ResponseCache.put (ResponseCache.get (newMd5ResponseCache 100) pipelineMd5Oracle 7
             (gs "GET") (gs "/e/foo")).cache 7 (gs "GET") (gs "/e/foo/index.html")
           (pipelineBackend (joinPathOnly sampleTarget (gs "/e/foo/index.html")))⟩ :=
  md5Cache_key_and_position.1 (gs "x") (gs "e") sampleTarget pipelineOracle
    pipelineMd5Oracle pipelineBackend (newMd5ResponseCache 100) 7 (gs "GET") (gs "x")
    (gs "/foo") (gs "/e/foo") (gs "/e/foo/index.html") (by decide) (by decide) (by decide)

theorem headerTrace_countP_writeHeaderEv (h : List (List Char × List (List Char))) :
    (h.flatMap fun kv => kv.2.map (WEvent.addHeader kv.1)).countP isWriteHeaderEv = 0 := by
  rw [List.countP_eq_zero]
  intro e he
  simp only [List.mem_flatMap, List.mem_map] at he
  obtain ⟨kv, _, v, _, rfl⟩ := he
  simp [isWriteHeaderEv]

theorem headerTrace_countP_writeEv (h : List (List Char × List (List Char))) :
    (h.flatMap fun kv => kv.2.map (WEvent.addHeader kv.1)).countP isWriteEv = 0 := by
  rw [List.countP_eq_zero]
  intro e he
  simp only [List.mem_flatMap, List.mem_map] at he
  obtain ⟨kv, _, v, _, rfl⟩ := he
  simp [isWriteEv]

theorem headerEvValues_map (k k' : List Char) (vs : List (List Char)) :
    headerEvValues k (vs.map (WEvent.addHeader k')) = if k' = k then vs else [] := by
  induction vs with
  | nil => simp [headerEvValues]
  | cons v rest ih =>
    by_cases h : k' = k
    · simpa [headerEvValues, h] using ih
    · simp [headerEvValues, h]

theorem headerEvValues_headerTrace (k : List Char)
    (h : List (List Char × List (List Char))) :
    headerEvValues k (h.flatMap fun kv => kv.2.map (WEvent.addHeader kv.1))
      = headerGet h k := by
  induction h with
  | nil => rfl
  | cons kv rest ih =>
    rw [List.flatMap_cons]
    unfold headerEvValues at ih ⊢
    rw [List.filterMap_append]
    have hchunk := headerEvValues_map k kv.1 kv.2
    unfold headerEvValues at hchunk
    rw [hchunk, ih]
    by_cases hk : kv.1 = k
    · simp [headerGet, List.filter_cons, hk]
    · simp [headerGet, List.filter_cons, hk]

/-- Claim C9 (confirmed): flushing a capture buffer replays all header
values first — every event before the tail is a header add, and for each
key the replayed values are exactly the stored ones in their original
insertion order — then exactly one status write carrying the recorded
status, then exactly one body write carrying the buffered body, in that
order. -/
theorem writeTo_order (w : CachedResponseWriter) :
    ∃ hs, w.writeTo = hs ++ [WEvent.writeHeader w.statusCode, WEvent.write w.buffer]
      ∧ (∀ e ∈ hs, isAddHeaderEv e = true)
      ∧ w.writeTo.countP isWriteHeaderEv = 1
      ∧ w.writeTo.countP isWriteEv = 1
      ∧ (∀ k, headerEvValues k w.writeTo = headerGet w.header k) := by
  refine ⟨w.header.flatMap fun kv => kv.2.map (WEvent.addHeader kv.1), rfl, ?_, ?_, ?_, ?_⟩
  · intro e he
    simp only [List.mem_flatMap, List.mem_map] at he
    obtain ⟨kv, _, v, _, rfl⟩ := he
    rfl
  · unfold CachedResponseWriter.writeTo
    rw [List.countP_append, headerTrace_countP_writeHeaderEv]
    rfl
  · unfold CachedResponseWriter.writeTo
    rw [List.countP_append, headerTrace_countP_writeEv]
    rfl
  · intro k
    unfold CachedResponseWriter.writeTo headerEvValues
    rw [List.filterMap_append]
    have hmain := headerEvValues_headerTrace k w.header
    unfold headerEvValues at hmain
    rw [hmain]
    simp

/-- Claim C9, witness: the flush-trace decomposition at a concrete
populated buffer. -/
theorem writeTo_order_witness :
    ∃ hs, sampleEntryWriter.writeTo
        = hs ++ [WEvent.writeHeader sampleEntryWriter.statusCode,
                 WEvent.write sampleEntryWriter.buffer]
      ∧ (∀ e ∈ hs, isAddHeaderEv e = true)
      ∧ sampleEntryWriter.writeTo.countP isWriteHeaderEv = 1
      ∧ sampleEntryWriter.writeTo.countP isWriteEv = 1
      ∧ (∀ k, headerEvValues k sampleEntryWriter.writeTo
          = headerGet sampleEntryWriter.header k) :=
  writeTo_order sampleEntryWriter

theorem applyWriterOps_statusCode :
    ∀ ops : List WriterOp, (∀ op ∈ ops, isWriteHeaderOp op = false) →
      ∀ w : CachedResponseWriter, (applyWriterOps w ops).statusCode = w.statusCode := by
  intro ops
  induction ops with
  | nil => intro _ w; rfl
  | cons op rest ih =>
    intro h w
    have hop := h op (List.mem_cons_self _ _)
    have hrest := fun o ho => h o (List.mem_cons_of_mem _ ho)
    cases op with
    | write body => simpa [applyWriterOps, applyWriterOp] using ih hrest _
    | writeHeader code => simp [isWriteHeaderOp] at hop
    | addHeader k v => simpa [applyWriterOps, applyWriterOp] using ih hrest _

/-- Claim C10 (confirmed): a freshly constructed capture buffer holds
status 200, and for every handler invocation that never calls the
status-set primitive the buffer still holds 200 afterwards, so the flush
replays a status write of 200. -/
theorem default_status_200 :
    newCachedResponseWriter.statusCode = 200
    ∧ ∀ ops, (∀ op ∈ ops, isWriteHeaderOp op = false) →
      (applyWriterOps newCachedResponseWriter ops).statusCode = 200
      ∧ WEvent.writeHeader 200 ∈ (applyWriterOps newCachedResponseWriter ops).writeTo := by
  refine ⟨rfl, fun ops h => ?_⟩
  have hst := applyWriterOps_statusCode ops h newCachedResponseWriter
  refine ⟨hst, ?_⟩
  have hmem : WEvent.writeHeader (applyWriterOps newCachedResponseWriter ops).statusCode
      ∈ (applyWriterOps newCachedResponseWriter ops).writeTo := by
    simp [CachedResponseWriter.writeTo]
  rw [hst] at hmem
  exact hmem

/-- Claim C10, witness: a handler that adds a header and writes a body but
never sets a status leaves the flushed status at 200. -/
theorem default_status_200_witness :
    (applyWriterOps newCachedResponseWriter
        [WriterOp.addHeader (gs "X-K") (gs "v"), WriterOp.write (gs "hi")]).statusCode = 200
    ∧ WEvent.writeHeader 200 ∈ (applyWriterOps newCachedResponseWriter
        [WriterOp.addHeader (gs "X-K") (gs "v"), WriterOp.write (gs "hi")]).writeTo :=
  default_status_200.2 _ (by decide)
